import Mathlib

/-!
# Verification of the snippet ingestion and retrieval pipeline

A shallow embedding, in Lean 4, of the core of the snippy ingestion and
retrieval service: the chunker and vector aggregation inlined in
`embeddings_orchestrator` (src/functions/bp_embeddings.py), the activities
`embed_chunk_activity` and `persist_snippet_activity`, the input validation
`validate_input`, the Cosmos-backed persistence layer
(src/data/cosmos_ops.py) and the RAG query endpoint (src/routes/query.py).

Numeric vectors are modelled over `ℚ` (the Python code computes with IEEE
doubles; every concrete value exercised here is exactly representable, and
the algebraic facts proved are exact-arithmetic facts).  External
capabilities — the embedding model, the chat model, the Cosmos service —
are parameters (oracles) of the embedded functions.
-/

namespace Snippy

/-! ## Chunker

`embeddings_orchestrator` chunks a snippet's code with
`[text[i : i + CHUNK_SIZE] for i in range(0, len(text), CHUNK_SIZE)] or [""]`.
`range(0, n, S)` enumerates the `⌈n / S⌉` start offsets `0, S, 2·S, …`, and
`text[i : i + S]` is `(text.drop i).take S`; the trailing `or [""]` replaces
the empty chunk list (empty text) by a single empty chunk.  Texts are
modelled as `List Char`. -/
/-- The list comprehension `[text[i : i + size] for i in range(0, len(text), size)]`:
one slice of length `size` per start offset `i*size`, with `⌈len/size⌉` offsets. -/
def chunkSlices (text : List Char) (size : Nat) : List (List Char) :=
  (List.range ((text.length + size - 1) / size)).map
    (fun i => (text.drop (i * size)).take size)

/-- The chunking expression of `embeddings_orchestrator`, including the
`or [""]` fallback for empty text. -/
def pyChunk (text : List Char) (size : Nat) : List (List Char) :=
  let cs := chunkSlices text size
  if cs.isEmpty then [[]] else cs

/-! ## Vector aggregator

`embeddings_orchestrator` aggregates the per-chunk vectors in place:

    agg = []
    if embeddings and embeddings[0]:
        dim = len(embeddings[0])
        sums = [0.0] * dim
        for vec in embeddings:
            for j in range(dim):
                sums[j] += float(vec[j])
        agg = [s / len(embeddings) for s in sums]

The inner loop adds `vec[j]` to `sums[j]` for every `j < dim`; when some
`vec` is shorter than `dim` (in particular the empty vector of a failed
chunk embedding), `vec[j]` raises `IndexError`, which nothing in the
orchestrator catches.  The model therefore returns `Except`: `.error`
models the uncaught `IndexError` that aborts the orchestration. -/
/-- One pass of the inner loop: `sums[j] += vec[j]` for every `j < dim`
(out-of-range reads are guarded by the caller). -/
def addVec (dim : Nat) (sums vec : List ℚ) : List ℚ :=
  (List.range dim).map (fun j => sums.getD j 0 + vec.getD j 0)

/-- The aggregation block of `embeddings_orchestrator`.  `dim` is the length
of the first vector; the loop raises `IndexError` (modelled as `.error`) as
soon as some vector is shorter than `dim`. -/
def aggEmbeddings (embeddings : List (List ℚ)) : Except String (List ℚ) :=
  match embeddings with
  | [] => .ok []
  | v0 :: _ =>
    if v0.isEmpty then .ok []
    else
      let dim := v0.length
      if embeddings.all (fun v => dim ≤ v.length) then
        let sums := embeddings.foldl (addVec dim) (List.replicate dim 0)
        .ok (sums.map (fun s => s / (embeddings.length : ℚ)))
      else .error "IndexError: list index out of range"

/-! ## JSON payloads and `validate_input`

The orchestration payload is an untyped JSON value (a Python dict).
`validate_input` checks: the input is a dict, it has a key `snippets`,
`snippets` is a non-empty list, every element is a dict having keys `name`
and `code`, and `code` is a string that is non-empty after `strip()`. -/
/-- Untyped JSON values, as passed between the HTTP starter, the
orchestrator and the activities. -/
inductive JVal where
  | null
  | bool (b : Bool)
  | num (n : Int)
  | str (s : String)
  | arr (xs : List JVal)
  | obj (fields : List (String × JVal))

/-- Dictionary lookup (`d[key]` / `key in d`): `none` when the value is not
a dict or the key is absent. -/
def jGet : JVal → String → Option JVal
  | .obj fields, key => (fields.find? (fun kv => kv.1 == key)).map (·.2)
  | _, _ => none

/-- `key in d`. -/
def jHasKey (v : JVal) (key : String) : Bool :=
  (jGet v key).isSome

/-- `isinstance(v, dict)`. -/
def jIsDict : JVal → Bool
  | .obj _ => true
  | _ => false

/-- The check `s.strip() == ""`: a string strips to empty exactly when
every character is whitespace. -/
def stripIsEmpty (s : String) : Bool :=
  s.data.all (·.isWhitespace)

/-- The per-snippet checks of `validate_input`: a dict with keys `name` and
`code`, where `code` is a string whose `strip()` is non-empty.  (`name` is
only required to be present; its value is not inspected.) -/
def validSnippet (snip : JVal) : Bool :=
  jIsDict snip && jHasKey snip "name" && jHasKey snip "code" &&
    (match jGet snip "code" with
     | some (.str c) => !(stripIsEmpty c)
     | _ => false)

/-- `validate_input` of bp_embeddings.py. -/
def validate_input (input : JVal) : Bool :=
  jIsDict input && jHasKey input "snippets" &&
    (match jGet input "snippets" with
     | some (.arr snippets) => !snippets.isEmpty && snippets.all validSnippet
     | _ => false)

/-- `snippet.get(key, fallback)` for the string-valued payload fields the
orchestrator reads (`name`, `code`, `language`, `description`,
`projectId`). -/
def snipStr (snip : JVal) (key fallback : String) : String :=
  match jGet snip key with
  | some (.str s) => s
  | _ => fallback

/-- The `snippets` list of a payload (`payload.get("snippets", [])`,
list-valued in every validated payload). -/
def payloadSnippets (payload : JVal) : List JVal :=
  match jGet payload "snippets" with
  | some (.arr xs) => xs
  | _ => []

/-! ## `embed_chunk_activity`

The activity returns `[]` for empty chunk text; it falls back to the fixed
mock vector `[0.0, 1.0, 0.0]` when `EMBEDDING_MODEL_DEPLOYMENT_NAME` or
`PROJECT_CONNECTION_STRING` is unset (or empty — Python truthiness);
otherwise it calls the external embedding capability, and any failure
(exception, empty response data, empty embedding) is caught and yields
`[]`.  The capability is the oracle `api`; `api text = none` models a call
that raises or returns no data. -/
/-- Embedding-related environment configuration. -/
structure EmbedEnv where
  modelName : Option String
  connString : Option String

/-- Python truthiness of an optional environment string: falsy when unset
or empty. -/
def envFalsy : Option String → Bool
  | none => true
  | some s => s.isEmpty

/-- `embed_chunk_activity` of bp_embeddings.py. -/
def embed_chunk_activity (env : EmbedEnv) (api : List Char → Option (List ℚ))
    (text : List Char) : List ℚ :=
  if text.isEmpty then []
  else if envFalsy env.modelName || envFalsy env.connString then [0, 1, 0]
  else
    match api text with
    | none => []
    | some v => if v.isEmpty then [] else v

/-! ## `persist_snippet_activity` and the orchestrator -/
/-- The document handed to persistence by the orchestrator. -/
structure SnippetDoc where
  projectId : String
  name : String
  code : String
  embedding : List ℚ
  language : String
  description : String
deriving DecidableEq

/-- Value of the orchestrator's `result` variable: `{}` initially, then the
last persistence activity's `{ok: true, id}` or `{ok: false, error}`. -/
inductive PersistResult where
  | empty
  | ok (id : String)
  | err (msg : String)
deriving DecidableEq

/-- `persist_snippet_activity` of bp_embeddings.py: `cosmos_ops.upsert_document`
either returns the stored document (here: its id) or raises; the exception
is caught and reported as `{ok: false, error}`.  The store call is the
oracle `upsert`. -/
def persist_snippet_activity (upsert : SnippetDoc → Except String String)
    (snippet : SnippetDoc) : PersistResult :=
  match upsert snippet with
  | .ok i => .ok i
  | .error e => .err e

/-- Orchestrator environment: `CHUNK_SIZE`, `DEFAULT_PROJECT_ID` and the
embedding configuration. -/
structure OrchEnv where
  chunkSize : Nat
  defaultProjectId : String
  embed : EmbedEnv

/-- Ghost observation of the orchestrator's activity calls: the chunk texts
sent to `embed_chunk_activity`, the documents sent to
`persist_snippet_activity`, and the per-snippet persistence outcomes in
submission order. -/
structure OrchTrace where
  embedCalls : List (List Char)
  persistCalls : List SnippetDoc
  results : List PersistResult
deriving DecidableEq

/-- The per-snippet loop of `embeddings_orchestrator`: skip snippets with
empty `code`; chunk; fan out one embedding call per chunk; aggregate
(`.error` = the uncaught `IndexError` of 4.3 aborting the orchestration);
persist; remember the persistence outcome in `result` and continue. -/
def processSnippets (env : OrchEnv) (api : List Char → Option (List ℚ))
    (upsert : SnippetDoc → Except String String) (projectId : String) :
    List JVal → PersistResult → Except String PersistResult × OrchTrace
  | [], last => (.ok last, ⟨[], [], []⟩)
  | snip :: rest, last =>
    let name := snipStr snip "name" "unnamed"
    let text := snipStr snip "code" ""
    let language := snipStr snip "language" "unknown"
    let description := snipStr snip "description" "no description"
    if text.isEmpty then processSnippets env api upsert projectId rest last
    else
      let chunks := pyChunk text.data env.chunkSize
      let embeddings := chunks.map (embed_chunk_activity env.embed api)
      match aggEmbeddings embeddings with
      | .error e => (.error e, ⟨chunks, [], []⟩)
      | .ok agg =>
        let doc : SnippetDoc := ⟨projectId, name, text, agg, language, description⟩
        let pres := persist_snippet_activity upsert doc
        let out := processSnippets env api upsert projectId rest pres
        (out.1, ⟨chunks ++ out.2.embedCalls, doc :: out.2.persistCalls,
          pres :: out.2.results⟩)

/-- `embeddings_orchestrator` of bp_embeddings.py: validate (raising
`ValueError` on bad input, before any activity is scheduled), read
`projectId` with its default, then run the per-snippet loop starting from
`result = {}` and return the final `result`. -/
def runIngestion (env : OrchEnv) (api : List Char → Option (List ℚ))
    (upsert : SnippetDoc → Except String String) (payload : JVal) :
    Except String PersistResult × OrchTrace :=
  if validate_input payload then
    processSnippets env api upsert
      (snipStr payload "projectId" env.defaultProjectId)
      (payloadSnippets payload) .empty
  else (.error "Invalid input payload", ⟨[], [], []⟩)

/-! ## Persistence store (src/data/cosmos_ops.py)

The Cosmos container is created with partition key `/name`; a document is
identified by its (partition key value, `id`) pair.  `upsert_document`
writes `{id: name, name: name, projectId, code, type: "code-snippet",
embedding, language?, description?}`, so the identifying pair is
`(name, name)` — the id space is global per name, not partitioned by
project.  The store is modelled as the list of documents; `upsert_item`
replaces any document with the same identifying pair. -/
/-- A document as stored by `upsert_document`. -/
structure StoredDoc where
  id : String
  name : String
  projectId : String
  code : String
  type : String
  embedding : List ℚ
  language : Option String
  description : Option String
deriving DecidableEq

/-- The document `upsert_document` builds for given arguments. -/
def mkDocument (name projectId code : String) (embedding : List ℚ)
    (language description : Option String) : StoredDoc :=
  ⟨name, name, projectId, code, "code-snippet", embedding, language, description⟩

/-- `upsert_document`: create or fully replace the document whose partition
key and id both equal `name`; returns the new store and the stored
document. -/
def upsert_document (name projectId code : String) (embedding : List ℚ)
    (language description : Option String) (store : List StoredDoc) :
    List StoredDoc × StoredDoc :=
  let doc := mkDocument name projectId code embedding language description
  (store.filter (fun d => !(d.name == name && d.id == name)) ++ [doc], doc)

/-- `get_snippet_by_id`: `read_item(item=name, partition_key=name)` — point
lookup by the (partition key, id) pair, `none` when not found. -/
def get_snippet_by_id (store : List StoredDoc) (name : String) :
    Option StoredDoc :=
  store.find? (fun d => d.name == name && d.id == name)

/-- A similarity search result row: `SELECT c.id, c.code,
VectorDistance(c.embedding, @vec) AS score`. -/
structure SearchHit where
  id : String
  code : String
  score : ℚ
deriving DecidableEq

/-- `query_similar_snippets`: the Cosmos SQL query

    SELECT TOP @k c.id, c.code, VectorDistance(c.embedding, @vec) AS score
    FROM c WHERE c.projectId = @pid
    ORDER BY VectorDistance(c.embedding, @vec)

modelled with the external `VectorDistance` as an opaque partial function
`dist` (`none` = the expression is undefined for that document, e.g. a
vector not matching the container's embedding policy; per Cosmos SQL
semantics an item whose `ORDER BY` expression is undefined is omitted from
the result).  Rows are filtered by `projectId`, scored, ordered by
ascending score and truncated to `k`. -/
def query_similar_snippets (dist : List ℚ → List ℚ → Option ℚ)
    (store : List StoredDoc) (queryVector : List ℚ) (projectId : String)
    (k : Nat) : List SearchHit :=
  let rows := store.filter (fun d => d.projectId == projectId)
  let scored := rows.filterMap (fun d =>
    (dist d.embedding queryVector).map
      (fun s => SearchHit.mk d.id d.code s))
  (scored.insertionSort (fun a b => a.score ≤ b.score)).take k

/-! ## Query endpoint (src/routes/query.py)

`http_query` strips the question and rejects an empty one with 400; it
runs the vector-search capability (whose JSON reply is either a result
list or an error payload — modelled as `Except`), returning 502 on an
error payload; otherwise it builds citations from the full retrieved set,
calls `_chat_complete`, and returns 200 with
`{answer, citations, usage}`.  `_chat_complete` never raises: it returns a
mocked answer when `DISABLE_OPENAI=1`, a placeholder text with an error
marker when the model or connection string is unconfigured, and on an
exception from the chat capability the caught result `("", {error})`. -/
/-- Chat-side environment and capability outcome for `_chat_complete`:
`completion` is the text produced by the external chat call, `none` when
the call raises. -/
structure ChatEnv where
  disableOpenai : Bool
  model : Option String
  connString : Option String
  completion : Option String

/-- `_chat_complete`: returns the answer text and whether the returned
`usage` metadata carries an `error` marker. -/
def chat_complete (env : ChatEnv) : String × Bool :=
  if env.disableOpenai then ("This is a mocked answer.", false)
  else if envFalsy env.model || envFalsy env.connString then
    ("Model or connection not configured.", true)
  else
    match env.completion with
    | none => ("", true)
    | some text => (text, false)

/-- The JSON body of an `http_query` response. -/
inductive QueryBody where
  | failure (error : String)
  | success (answer : String) (citations : List (String × ℚ))
      (usageError : Bool)
deriving DecidableEq

/-- `http_query`: HTTP status and body for a parsed request, given the
vector-search outcome (`.error` = the capability returned an error
payload) and the chat environment. -/
def http_query (question : String)
    (searchOutcome : Except String (List SearchHit)) (chat : ChatEnv) :
    Nat × QueryBody :=
  if stripIsEmpty question then (400, .failure "question is required")
  else
    match searchOutcome with
    | .error e => (502, .failure e)
    | .ok results =>
      let citations := results.map (fun r => (r.id, r.score))
      let answerUsage := chat_complete chat
      (200, .success answerUsage.1 citations answerUsage.2)

/-! ## Concrete fixtures used by witnesses and counterexamples -/
/-- A valid two-snippet submission. -/
def demoPayload : JVal :=
  .obj [("projectId", .str "p"),
    ("snippets", .arr [
      .obj [("name", .str "s1"), ("code", .str "ab")],
      .obj [("name", .str "s2"), ("code", .str "cd")]])]

/-- A submission with an empty `snippets` list. -/
def demoEmptyList : JVal :=
  .obj [("projectId", .str "p"), ("snippets", .arr [])]

/-- A submission whose only snippet has an empty-string `name`. -/
def demoEmptyName : JVal :=
  .obj [("snippets", .arr [.obj [("name", .str ""), ("code", .str "x")]])]

/-- A single snippet whose code splits into two chunks of size 4. -/
def demoTwoChunk : JVal :=
  .obj [("projectId", .str "p"),
    ("snippets", .arr [.obj [("name", .str "s1"), ("code", .str "abcdefgh")]])]

/-- Default configuration with no embedding model configured. -/
def mockEnv : OrchEnv := ⟨800, "default-project", ⟨none, none⟩⟩

/-- Configured embedding environment with chunk size 4. -/
def liveEnv : OrchEnv := ⟨4, "default-project", ⟨some "m", some "c"⟩⟩

/-- An embedding capability that always fails. -/
def apiNone : List Char → Option (List ℚ) := fun _ => none

/-- An embedding capability succeeding on chunk `"abcd"` only. -/
def apiFail2 : List Char → Option (List ℚ) := fun t =>
  if t == "abcd".data then some [1, 2] else none

/-- An embedding capability succeeding on chunk `"efgh"` only. -/
def apiFail1 : List Char → Option (List ℚ) := fun t =>
  if t == "efgh".data then some [1, 2] else none

/-- A persistence call that always succeeds. -/
def okUpsert : SnippetDoc → Except String String := fun d => .ok d.name

/-- A persistence call forced to fail for the second snippet. -/
def failSecond : SnippetDoc → Except String String := fun d =>
  if d.name == "s2" then .error "boom" else .ok d.name

/-- A persistence call that always fails. -/
def failBoth : SnippetDoc → Except String String := fun _ => .error "boom"

/-- A store holding documents of two projects, one with an empty embedding. -/
def demoStore : List StoredDoc :=
  [mkDocument "a" "p1" "ca" [1] none none,
   mkDocument "b" "p2" "cb" [2] none none,
   mkDocument "e" "p2" "ce" [] none none]

/-- A distance capability undefined exactly on empty vectors. -/
def demoDist : List ℚ → List ℚ → Option ℚ := fun v _ =>
  if v.isEmpty then none else some 0

/-- A chat environment whose external completion call raises. -/
def chatFailEnv : ChatEnv := ⟨false, some "m", some "c", none⟩

/-- Validation as the spec words it, for comparison with `validate_input`:
in addition to the checks the code performs, the spec requires each
snippet's `name` to be a non-empty string. -/
def specValidateInput (input : JVal) : Bool :=
  jIsDict input &&
    (match jGet input "snippets" with
     | some (.arr snippets) =>
       !snippets.isEmpty && snippets.all (fun snip =>
         jIsDict snip &&
         (match jGet snip "name" with
          | some (.str n) => !n.isEmpty
          | _ => false) &&
         (match jGet snip "code" with
          | some (.str c) => !(stripIsEmpty c)
          | _ => false))
     | _ => false)

/-! ## Theorems -/

/-- Ceiling-division step: for non-empty text, there is one chunk for the
first `size` characters plus the chunks of the rest. -/
theorem ceil_div_succ (n size : Nat) (hs : 0 < size) (hn : 0 < n) :
    (n + size - 1) / size = ((n - size) + size - 1) / size + 1 := by
  rcases le_or_lt n size with h | h
  · have h1 : n + size - 1 = (n - 1) + size := by omega
    have h2 : n - size = 0 := by omega
    rw [h1, Nat.add_div_right _ hs, Nat.div_eq_of_lt (by omega)]
    rw [h2]
    rw [Nat.div_eq_of_lt (by omega)]
  · have h1 : n + size - 1 = ((n - size) + size - 1) + size := by omega
    rw [h1, Nat.add_div_right _ hs]

/-- Unfolding step of the slice comprehension: for non-empty text it yields
the first `size` characters, then the slices of the remainder. -/
theorem chunkSlices_cons (size : Nat) (hs : 0 < size) (text : List Char)
    (ht : text ≠ []) :
    chunkSlices text size = text.take size :: chunkSlices (text.drop size) size := by
  have hn : 0 < text.length := List.length_pos.mpr ht
  unfold chunkSlices
  rw [List.length_drop, ceil_div_succ _ _ hs hn, List.range_succ_eq_map]
  simp only [List.map_cons, Nat.zero_mul, List.drop_zero, List.map_map]
  congr 1
  apply List.map_congr_left
  intro i _
  simp only [Function.comp_apply]
  rw [List.drop_drop]
  congr 2
  simp only [Nat.succ_eq_add_one]
  ring

/-- Concatenating the slices in order reproduces the text. -/
theorem chunkSlices_flatten (size : Nat) (hs : 0 < size) (text : List Char) :
    (chunkSlices text size).flatten = text := by
  by_cases ht : text = []
  · subst ht
    simp [chunkSlices]
  · rw [chunkSlices_cons size hs text ht]
    have ih := chunkSlices_flatten size hs (text.drop size)
    simp only [List.flatten_cons, ih, List.take_append_drop]
termination_by text.length
decreasing_by
  have hn : 0 < text.length := List.length_pos.mpr ht
  simp only [List.length_drop]
  omega

/-- The number of slices is `⌈len / size⌉`, by construction. -/
theorem chunkSlices_length (text : List Char) (size : Nat) :
    (chunkSlices text size).length = (text.length + size - 1) / size := by
  simp [chunkSlices]

/-- Every slice has length at most `size`. -/
theorem chunkSlices_le (text : List Char) (size : Nat) :
    ∀ c ∈ chunkSlices text size, c.length ≤ size := by
  intro c hc
  simp only [chunkSlices, List.mem_map, List.mem_range] at hc
  obtain ⟨i, _, rfl⟩ := hc
  rw [List.length_take]
  exact Nat.min_le_left _ _

/-- Every slice of a non-empty text is non-empty: each start offset `i*size`
lies strictly inside the text. -/
theorem chunkSlices_ne_nil (text : List Char) (size : Nat) (hs : 0 < size) :
    ∀ c ∈ chunkSlices text size, c ≠ [] := by
  intro c hc
  simp only [chunkSlices, List.mem_map, List.mem_range] at hc
  obtain ⟨i, hi, rfl⟩ := hc
  have h1 : i + 1 ≤ (text.length + size - 1) / size := hi
  have h2 : (i + 1) * size ≤ text.length + size - 1 :=
    (Nat.le_div_iff_mul_le hs).mp h1
  have e : (i + 1) * size = i * size + size := by ring
  have h3 : i * size < text.length := by omega
  have h4 : 0 < (text.drop (i * size)).length := by
    simp only [List.length_drop]
    omega
  intro h
  rw [List.take_eq_nil_iff] at h
  rcases h with h | h
  · omega
  · exact absurd h (List.ne_nil_of_length_pos h4)

/-- For non-empty text `pyChunk` is exactly the slice comprehension. -/
theorem pyChunk_of_ne_nil (text : List Char) (size : Nat) (hs : 0 < size)
    (ht : text ≠ []) : pyChunk text size = chunkSlices text size := by
  have hn : 0 < text.length := List.length_pos.mpr ht
  have : chunkSlices text size ≠ [] := by
    have hlen : 0 < (chunkSlices text size).length := by
      rw [chunkSlices_length]
      have : 0 < (text.length + size - 1) / size :=
        Nat.div_pos (by omega) hs
      omega
    exact List.ne_nil_of_length_pos hlen
  simp [pyChunk, List.isEmpty_iff, this]

/-- For empty text `pyChunk` is a single empty chunk. -/
theorem pyChunk_nil (size : Nat) : pyChunk [] size = [[]] := by
  have h : (size - 1) / size = 0 := by
    rcases Nat.eq_zero_or_pos size with h | h
    · simp [h]
    · exact Nat.div_eq_of_lt (by omega)
  simp [pyChunk, chunkSlices, h]

/-- `pyChunk` never returns an empty list of chunks. -/
theorem pyChunk_ne_nil (text : List Char) (size : Nat) :
    pyChunk text size ≠ [] := by
  unfold pyChunk
  by_cases h : (chunkSlices text size).isEmpty <;> simp [h]
  exact List.isEmpty_eq_false_iff_exists_mem.mp (by simp [h]) |>.elim
    fun x hx => List.ne_nil_of_mem hx

theorem addVec_length (dim : Nat) (sums vec : List ℚ) :
    (addVec dim sums vec).length = dim := by
  simp [addVec]

theorem addVec_getD (dim : Nat) (sums vec : List ℚ) (j : Nat) (hj : j < dim) :
    (addVec dim sums vec).getD j 0 = sums.getD j 0 + vec.getD j 0 := by
  unfold addVec
  rw [List.getD_eq_getElem _ _ (by simpa using hj)]
  simp

/-- The sums loop accumulates, at every in-range index, the pointwise sum of
the processed vectors on top of the accumulator. -/
theorem foldl_addVec_getD (dim : Nat) (embs : List (List ℚ)) :
    ∀ (acc : List ℚ), acc.length = dim → ∀ j, j < dim →
      (embs.foldl (addVec dim) acc).getD j 0
        = acc.getD j 0 + (embs.map (fun v => v.getD j 0)).sum := by
  induction embs with
  | nil => intro acc _ j _; simp
  | cons v vs ih =>
    intro acc hacc j hj
    simp only [List.foldl_cons, List.map_cons, List.sum_cons]
    rw [ih (addVec dim acc v) (addVec_length dim acc v) j hj,
      addVec_getD dim acc v j hj]
    ring

theorem foldl_addVec_length (dim : Nat) (embs : List (List ℚ)) (acc : List ℚ)
    (hacc : acc.length = dim) : (embs.foldl (addVec dim) acc).length = dim := by
  induction embs generalizing acc with
  | nil => simpa
  | cons v vs ih => simpa using ih (addVec dim acc v) (addVec_length dim acc v)

/-- Aggregation of equal-length non-degenerate vectors is the element-wise
arithmetic mean. -/
theorem aggEmbeddings_mean (embeddings : List (List ℚ)) (v0 : List ℚ)
    (rest : List (List ℚ)) (he : embeddings = v0 :: rest) (h0 : v0 ≠ [])
    (hlen : ∀ v ∈ embeddings, v0.length ≤ v.length) :
    aggEmbeddings embeddings
      = .ok ((List.range v0.length).map
          (fun j => (embeddings.map (fun v => v.getD j 0)).sum
            / (embeddings.length : ℚ))) := by
  subst he
  show (if v0.isEmpty then Except.ok []
    else if (v0 :: rest).all (fun v => v0.length ≤ v.length) then
      Except.ok (((v0 :: rest).foldl (addVec v0.length)
        (List.replicate v0.length 0)).map
          (fun s => s / ((v0 :: rest).length : ℚ)))
    else Except.error "IndexError: list index out of range") = _
  rw [if_neg (by simpa [List.isEmpty_iff] using h0),
    if_pos (by simpa [List.all_eq_true, decide_eq_true_iff] using hlen)]
  have hflen : ((v0 :: rest).foldl (addVec v0.length)
      (List.replicate v0.length 0)).length = v0.length :=
    foldl_addVec_length _ _ _ (List.length_replicate _ _)
  congr 1
  apply List.ext_getElem
  · simp only [List.length_map, List.length_range, hflen]
  · intro j h1 h2
    have hdim : j < v0.length := by
      simpa only [List.length_map, hflen] using h1
    rw [List.getElem_map, List.getElem_map, List.getElem_range]
    rw [← List.getD_eq_getElem _ 0 (by rw [hflen]; exact hdim)]
    rw [foldl_addVec_getD _ _ _ (List.length_replicate _ _) j hdim]
    rw [List.getD_eq_getElem _ 0 (by simpa using hdim)]
    simp

/-- Aggregating `n ≥ 1` copies of the same non-empty vector returns that
vector (the mean of identical vectors). -/
theorem aggEmbeddings_replicate (n : Nat) (hn : 0 < n) (v : List ℚ)
    (hv : v ≠ []) : aggEmbeddings (List.replicate n v) = .ok v := by
  obtain ⟨m, rfl⟩ : ∃ m, n = m + 1 := ⟨n - 1, by omega⟩
  rw [List.replicate_succ]
  rw [aggEmbeddings_mean _ v (List.replicate m v) rfl hv (by
    intro w hw
    rw [← List.replicate_succ] at hw
    simp [List.eq_of_mem_replicate hw])]
  congr 1
  apply List.ext_getElem
  · simp
  · intro j h1 h2
    have hj : j < v.length := by simpa using h1
    rw [List.getElem_map, List.getElem_range]
    simp only [List.map_cons, List.map_replicate, List.sum_cons,
      List.sum_replicate, nsmul_eq_mul, List.length_cons,
      List.length_replicate]
    rw [List.getD_eq_getElem _ 0 hj]
    have hne : ((m : ℚ) + 1) ≠ 0 := by positivity
    field_simp
    ring

/-- If the first vector is empty the aggregation block leaves `agg = []`
without touching the remaining vectors (no `IndexError` possible). -/
theorem aggEmbeddings_first_empty (rest : List (List ℚ)) :
    aggEmbeddings ([] :: rest) = .ok [] := by
  simp [aggEmbeddings]

/-- If the first vector is non-empty and some later vector is strictly
shorter, the loop raises `IndexError`. -/
theorem aggEmbeddings_short_vec (v0 : List ℚ) (rest : List (List ℚ))
    (h0 : v0 ≠ []) (hshort : ∃ v ∈ rest, v.length < v0.length) :
    aggEmbeddings (v0 :: rest) = .error "IndexError: list index out of range" := by
  obtain ⟨v, hv, hlt⟩ := hshort
  show (if v0.isEmpty then Except.ok []
    else if (v0 :: rest).all (fun v => v0.length ≤ v.length) then
      Except.ok (((v0 :: rest).foldl (addVec v0.length)
        (List.replicate v0.length 0)).map
          (fun s => s / ((v0 :: rest).length : ℚ)))
    else Except.error "IndexError: list index out of range") = _
  rw [if_neg (by simpa [List.isEmpty_iff] using h0), if_neg]
  simp only [List.all_eq_true, decide_eq_true_iff]
  intro hall
  exact absurd (hall v (List.mem_cons_of_mem _ hv)) (by omega)

/-! ## General lemmas about the persistence layer -/
/-- Every hit returned by `query_similar_snippets` originates from a stored
document of the requested project whose distance expression is defined. -/
theorem query_similar_mem (dist : List ℚ → List ℚ → Option ℚ)
    (store : List StoredDoc) (queryVector : List ℚ) (projectId : String)
    (k : Nat) :
    ∀ hit ∈ query_similar_snippets dist store queryVector projectId k,
      ∃ d ∈ store, d.projectId = projectId ∧ hit.id = d.id
        ∧ hit.code = d.code ∧ dist d.embedding queryVector = some hit.score := by
  intro hit hmem
  unfold query_similar_snippets at hmem
  have h1 := List.take_subset _ _ hmem
  have h2 := (List.perm_insertionSort _ _).subset h1
  rw [List.mem_filterMap] at h2
  obtain ⟨d, hd, hf⟩ := h2
  rw [List.mem_filter] at hd
  obtain ⟨hds, hdp⟩ := hd
  rw [Option.map_eq_some'] at hf
  obtain ⟨s, hs, hhit⟩ := hf
  refine ⟨d, hds, by simpa using hdp, ?_, ?_, ?_⟩ <;> subst hhit <;> simp [hs]

/-- A repeated write to the same `name` completely absorbs the previous
write: the partition key and id are both `name`, independent of the
project. -/
theorem upsert_document_absorbs (name p1 p2 code1 code2 : String)
    (emb1 emb2 : List ℚ) (l1 l2 d1 d2 : Option String)
    (store : List StoredDoc) :
    (upsert_document name p2 code2 emb2 l2 d2
      (upsert_document name p1 code1 emb1 l1 d1 store).1).1
    = (upsert_document name p2 code2 emb2 l2 d2 store).1 := by
  unfold upsert_document
  simp only [List.filter_append, List.filter_filter]
  have e1 : store.filter (fun a => !(a.name == name && a.id == name)
        && !(a.name == name && a.id == name))
      = store.filter (fun d => !(d.name == name && d.id == name)) := by
    apply List.filter_congr
    intro d _
    cases h : (d.name == name && d.id == name) <;> simp [h]
  rw [e1]
  simp [mkDocument]

/-- After an upsert there is exactly one stored document whose partition
key and id equal the written `name`. -/
theorem upsert_document_unique (name projectId code : String)
    (embedding : List ℚ) (language description : Option String)
    (store : List StoredDoc) :
    ((upsert_document name projectId code embedding language description
      store).1.countP (fun d => d.name == name && d.id == name)) = 1 := by
  unfold upsert_document
  rw [List.countP_append]
  have h0 : (store.filter
      (fun d => !(d.name == name && d.id == name))).countP
        (fun d => d.name == name && d.id == name) = 0 := by
    rw [List.countP_eq_zero]
    intro d hd
    rw [List.mem_filter] at hd
    have h2 := hd.2
    cases h : (d.name == name && d.id == name) <;> simp_all
  rw [h0]
  simp [mkDocument]

/-- A freshly upserted document is returned by point lookup on its name,
whatever was in the store before. -/
theorem get_after_upsert (name projectId code : String) (embedding : List ℚ)
    (language description : Option String) (store : List StoredDoc) :
    get_snippet_by_id (upsert_document name projectId code embedding
      language description store).1 name
    = some (mkDocument name projectId code embedding language description) := by
  unfold get_snippet_by_id upsert_document
  rw [List.find?_append]
  have h0 : (store.filter
      (fun d => !(d.name == name && d.id == name))).find?
        (fun d => d.name == name && d.id == name) = none := by
    rw [List.find?_eq_none]
    intro d hd
    rw [List.mem_filter] at hd
    have h2 := hd.2
    cases h : (d.name == name && d.id == name) <;> simp_all
  rw [h0]
  simp [mkDocument]

/-! ## General lemmas about the orchestrator -/
/-- A snippet passing `validSnippet` has a non-empty `code` string. -/
theorem validSnippet_code_ne (snip : JVal) (h : validSnippet snip = true) :
    (snipStr snip "code" "").isEmpty = false := by
  unfold validSnippet at h
  simp only [Bool.and_eq_true] at h
  obtain ⟨_, hcode⟩ := h
  unfold snipStr
  cases hg : jGet snip "code" with
  | none => rw [hg] at hcode; simp at hcode
  | some v =>
    rw [hg] at hcode
    cases v with
    | str c =>
      simp only [Bool.not_eq_true'] at hcode
      by_contra hc
      rw [Bool.not_eq_false, String.isEmpty_iff] at hc
      subst hc
      simp [stripIsEmpty] at hcode
    | null => simp at hcode
    | bool b => simp at hcode
    | num n => simp at hcode
    | arr xs => simp at hcode
    | obj fields => simp at hcode

/-- Unfolding equation: the empty snippet list returns the accumulated
`result` and an empty trace. -/
theorem processSnippets_nil (env : OrchEnv) (api : List Char → Option (List ℚ))
    (upsert : SnippetDoc → Except String String) (projectId : String)
    (last : PersistResult) :
    processSnippets env api upsert projectId [] last = (.ok last, ⟨[], [], []⟩) :=
  rfl

/-- Unfolding equation: a snippet with empty `code` is skipped. -/
theorem processSnippets_skip (env : OrchEnv) (api : List Char → Option (List ℚ))
    (upsert : SnippetDoc → Except String String) (projectId : String)
    (s : JVal) (rest : List JVal) (last : PersistResult)
    (ht : (snipStr s "code" "").isEmpty = true) :
    processSnippets env api upsert projectId (s :: rest) last
      = processSnippets env api upsert projectId rest last := by
  simp only [processSnippets]
  rw [if_pos ht]

/-- Unfolding equation: when the aggregation of the snippet's chunk
embeddings raises, the orchestration aborts with that error. -/
theorem processSnippets_cons_err (env : OrchEnv)
    (api : List Char → Option (List ℚ))
    (upsert : SnippetDoc → Except String String) (projectId : String)
    (s : JVal) (rest : List JVal) (last : PersistResult) (e : String)
    (ht : (snipStr s "code" "").isEmpty = false)
    (hagg : aggEmbeddings ((pyChunk (snipStr s "code" "").data
      env.chunkSize).map (embed_chunk_activity env.embed api)) = .error e) :
    processSnippets env api upsert projectId (s :: rest) last
      = (.error e, ⟨pyChunk (snipStr s "code" "").data env.chunkSize, [], []⟩) := by
  simp only [processSnippets]
  rw [if_neg (by rw [ht]; exact Bool.false_ne_true), hagg]

/-- Unfolding equation: when the aggregation succeeds, the snippet is
persisted and the loop continues with the persistence outcome as the new
`result`. -/
theorem processSnippets_cons_ok (env : OrchEnv)
    (api : List Char → Option (List ℚ))
    (upsert : SnippetDoc → Except String String) (projectId : String)
    (s : JVal) (rest : List JVal) (last : PersistResult) (agg : List ℚ)
    (ht : (snipStr s "code" "").isEmpty = false)
    (hagg : aggEmbeddings ((pyChunk (snipStr s "code" "").data
      env.chunkSize).map (embed_chunk_activity env.embed api)) = .ok agg) :
    processSnippets env api upsert projectId (s :: rest) last
      = ((processSnippets env api upsert projectId rest
            (persist_snippet_activity upsert
              ⟨projectId, snipStr s "name" "unnamed", snipStr s "code" "",
                agg, snipStr s "language" "unknown",
                snipStr s "description" "no description"⟩)).1,
          ⟨pyChunk (snipStr s "code" "").data env.chunkSize
              ++ (processSnippets env api upsert projectId rest
                (persist_snippet_activity upsert
                  ⟨projectId, snipStr s "name" "unnamed", snipStr s "code" "",
                    agg, snipStr s "language" "unknown",
                    snipStr s "description" "no description"⟩)).2.embedCalls,
            (⟨projectId, snipStr s "name" "unnamed", snipStr s "code" "",
                agg, snipStr s "language" "unknown",
                snipStr s "description" "no description"⟩ : SnippetDoc)
              :: (processSnippets env api upsert projectId rest
                (persist_snippet_activity upsert
                  ⟨projectId, snipStr s "name" "unnamed", snipStr s "code" "",
                    agg, snipStr s "language" "unknown",
                    snipStr s "description" "no description"⟩)).2.persistCalls,
            persist_snippet_activity upsert
                ⟨projectId, snipStr s "name" "unnamed", snipStr s "code" "",
                  agg, snipStr s "language" "unknown",
                  snipStr s "description" "no description"⟩
              :: (processSnippets env api upsert projectId rest
                (persist_snippet_activity upsert
                  ⟨projectId, snipStr s "name" "unnamed", snipStr s "code" "",
                    agg, snipStr s "language" "unknown",
                    snipStr s "description" "no description"⟩)).2.results⟩) := by
  simp only [processSnippets]
  rw [if_neg (by rw [ht]; exact Bool.false_ne_true), hagg]

/-- When the loop finishes without an uncaught exception, the returned
`result` is the persistence outcome of the last processed snippet (or the
incoming accumulator when nothing was processed). -/
theorem processSnippets_ok_last (env : OrchEnv)
    (api : List Char → Option (List ℚ))
    (upsert : SnippetDoc → Except String String) (projectId : String) :
    ∀ (snips : List JVal) (last r : PersistResult),
      (processSnippets env api upsert projectId snips last).1 = .ok r →
      r = (processSnippets env api upsert projectId snips last).2.results.getLastD
        last := by
  intro snips
  induction snips with
  | nil =>
    intro last r h
    rw [processSnippets_nil] at h ⊢
    cases h
    rfl
  | cons s rest ih =>
    intro last r h
    by_cases ht : (snipStr s "code" "").isEmpty
    · rw [processSnippets_skip env api upsert projectId s rest last ht] at h ⊢
      exact ih last r h
    · rw [Bool.not_eq_true] at ht
      cases hagg : aggEmbeddings ((pyChunk (snipStr s "code" "").data
          env.chunkSize).map (embed_chunk_activity env.embed api)) with
      | error e =>
        rw [processSnippets_cons_err env api upsert projectId s rest last e
          ht hagg] at h
        simp at h
      | ok agg =>
        rw [processSnippets_cons_ok env api upsert projectId s rest last agg
          ht hagg] at h ⊢
        rw [List.getLastD_cons]
        exact ih _ r h

/-- When every submitted snippet passes validation and the loop finishes
without an uncaught exception, there is exactly one persistence outcome per
snippet, in submission order. -/
theorem processSnippets_ok_length (env : OrchEnv)
    (api : List Char → Option (List ℚ))
    (upsert : SnippetDoc → Except String String) (projectId : String) :
    ∀ (snips : List JVal) (last r : PersistResult),
      (∀ s ∈ snips, validSnippet s = true) →
      (processSnippets env api upsert projectId snips last).1 = .ok r →
      (processSnippets env api upsert projectId snips last).2.results.length
        = snips.length := by
  intro snips
  induction snips with
  | nil =>
    intro last r _ _
    rw [processSnippets_nil]
    rfl
  | cons s rest ih =>
    intro last r hall h
    have hs := validSnippet_code_ne s (hall s (List.mem_cons_self s rest))
    cases hagg : aggEmbeddings ((pyChunk (snipStr s "code" "").data
        env.chunkSize).map (embed_chunk_activity env.embed api)) with
    | error e =>
      rw [processSnippets_cons_err env api upsert projectId s rest last e
        hs hagg] at h
      simp at h
    | ok agg =>
      rw [processSnippets_cons_ok env api upsert projectId s rest last agg
        hs hagg] at h ⊢
      rw [List.length_cons, List.length_cons]
      rw [ih _ r (fun x hx => hall x (List.mem_cons_of_mem s hx)) h]

/-- With the embedding configuration unset, every embedding call of a
non-empty chunk returns the mock vector, so every aggregate — and hence
every persisted document — carries exactly `[0, 1, 0]`. -/
theorem processSnippets_persist_mock (env : OrchEnv)
    (api : List Char → Option (List ℚ))
    (upsert : SnippetDoc → Except String String) (projectId : String)
    (hmock : (envFalsy env.embed.modelName
      || envFalsy env.embed.connString) = true)
    (hsize : 0 < env.chunkSize) :
    ∀ (snips : List JVal) (last : PersistResult),
      ∀ doc ∈ (processSnippets env api upsert projectId snips
          last).2.persistCalls, doc.embedding = [0, 1, 0] := by
  intro snips
  induction snips with
  | nil =>
    intro last doc hdoc
    rw [processSnippets_nil] at hdoc
    simp at hdoc
  | cons s rest ih =>
    intro last doc hdoc
    by_cases ht : (snipStr s "code" "").isEmpty
    · rw [processSnippets_skip env api upsert projectId s rest last ht] at hdoc
      exact ih last doc hdoc
    · rw [Bool.not_eq_true] at ht
      have hdata : (snipStr s "code" "").data ≠ [] := by
        intro hd
        rw [← Bool.not_eq_true, String.isEmpty_iff] at ht
        exact ht (String.ext hd)
      have hchunks : pyChunk (snipStr s "code" "").data env.chunkSize
          = chunkSlices (snipStr s "code" "").data env.chunkSize :=
        pyChunk_of_ne_nil _ _ hsize hdata
      have hmap : (pyChunk (snipStr s "code" "").data env.chunkSize).map
          (embed_chunk_activity env.embed api)
          = List.replicate ((pyChunk (snipStr s "code" "").data
              env.chunkSize).length) [0, 1, 0] := by
        have hlen : ((pyChunk (snipStr s "code" "").data env.chunkSize).map
            (embed_chunk_activity env.embed api)).length
            = (pyChunk (snipStr s "code" "").data env.chunkSize).length :=
          List.length_map _ _
        rw [← hlen]
        apply List.eq_replicate_of_mem
        intro b hb
        rw [List.mem_map] at hb
        obtain ⟨c, hc, rfl⟩ := hb
        rw [hchunks] at hc
        have hcne : c ≠ [] := chunkSlices_ne_nil _ _ hsize c hc
        unfold embed_chunk_activity
        rw [if_neg (by simp only [List.isEmpty_iff]; exact hcne)]
        rw [if_pos hmock]
      have hn : 0 < (pyChunk (snipStr s "code" "").data env.chunkSize).length :=
        List.length_pos.mpr (pyChunk_ne_nil _ _)
      have hagg : aggEmbeddings ((pyChunk (snipStr s "code" "").data
          env.chunkSize).map (embed_chunk_activity env.embed api))
          = .ok [0, 1, 0] := by
        rw [hmap]
        exact aggEmbeddings_replicate _ hn _ (by simp)
      rw [processSnippets_cons_ok env api upsert projectId s rest last
        [0, 1, 0] ht hagg] at hdoc
      simp only [List.mem_cons] at hdoc
      rcases hdoc with rfl | hmem
      · rfl
      · exact ih _ doc hmem

/-- Every snippet of a validated payload passes `validSnippet`. -/
theorem validate_input_snippets (payload : JVal)
    (h : validate_input payload = true) :
    ∀ s ∈ payloadSnippets payload, validSnippet s = true := by
  unfold validate_input at h
  simp only [Bool.and_eq_true] at h
  obtain ⟨_, hsn⟩ := h
  unfold payloadSnippets
  cases hg : jGet payload "snippets" with
  | none => rw [hg] at hsn; simp at hsn
  | some v =>
    rw [hg] at hsn
    cases v with
    | arr xs =>
      simp only [Bool.and_eq_true] at hsn
      intro s hs
      exact List.all_eq_true.mp hsn.2 s hs
    | null => simp at hsn
    | bool b => simp at hsn
    | num n => simp at hsn
    | str c => simp at hsn
    | obj fields => simp at hsn

/-- Unfolding equation: a validated payload runs the per-snippet loop. -/
theorem runIngestion_valid (env : OrchEnv) (api : List Char → Option (List ℚ))
    (upsert : SnippetDoc → Except String String) (payload : JVal)
    (h : validate_input payload = true) :
    runIngestion env api upsert payload
      = processSnippets env api upsert
          (snipStr payload "projectId" env.defaultProjectId)
          (payloadSnippets payload) .empty := by
  unfold runIngestion
  rw [if_pos h]

/-- Unfolding equation: an invalid payload raises `ValueError` before any
activity is scheduled — the trace is empty, in particular zero embedding
calls were made. -/
theorem runIngestion_invalid (env : OrchEnv)
    (api : List Char → Option (List ℚ))
    (upsert : SnippetDoc → Except String String) (payload : JVal)
    (h : validate_input payload = false) :
    runIngestion env api upsert payload
      = (.error "Invalid input payload", ⟨[], [], []⟩) := by
  unfold runIngestion
  rw [if_neg (by rw [h]; exact Bool.false_ne_true)]

/-! ## Claim theorems -/
/-- C4 counterexample: the claim asserts both that the number of chunks is
`⌈len(T)/S⌉` for every text and that the empty text yields exactly one
chunk; on the empty text the code produces one chunk while
`⌈0/S⌉ = 0`, so the chunk-count clause fails there. -/
theorem C4_counterexample :
    (pyChunk ([] : List Char) 1).length = 1
    ∧ (pyChunk ([] : List Char) 1).length
      ≠ (([] : List Char).length + 1 - 1) / 1 := by
  decide

/-- C4 (amended): for every text and positive chunk size, concatenating
the chunks in order reproduces the text, every chunk (in particular the
last) has length at most the chunk size, the empty text produces exactly
one empty chunk, and for non-empty text the number of chunks is
`⌈len(T)/S⌉` (for the empty text it is 1, not `⌈0/S⌉ = 0`). -/
theorem C4_chunk_round_trip (text : List Char) (size : Nat) (hs : 0 < size) :
    (pyChunk text size).flatten = text
    ∧ (text ≠ [] →
        (pyChunk text size).length = (text.length + size - 1) / size)
    ∧ (text = [] → pyChunk text size = [[]])
    ∧ ∀ c ∈ pyChunk text size, c.length ≤ size := by
  by_cases ht : text = []
  · subst ht
    rw [pyChunk_nil]
    refine ⟨rfl, fun h => absurd rfl h, fun _ => rfl, ?_⟩
    intro c hc
    simp only [List.mem_singleton] at hc
    subst hc
    simp
  · rw [pyChunk_of_ne_nil text size hs ht]
    exact ⟨chunkSlices_flatten size hs text,
      fun _ => chunkSlices_length text size,
      fun h => absurd h ht,
      chunkSlices_le text size⟩

/-- C4 witness: the amended round-trip at text `"abcde"` and size 2. -/
theorem C4_chunk_round_trip_witness :
    (0 : Nat) < 2
    ∧ (pyChunk "abcde".data 2).flatten = "abcde".data
    ∧ (pyChunk "abcde".data 2).length = ("abcde".data.length + 2 - 1) / 2 :=
  ⟨by decide, (C4_chunk_round_trip "abcde".data 2 (by decide)).1,
    (C4_chunk_round_trip "abcde".data 2 (by decide)).2.1 (by decide)⟩

/-- C8: the aggregation block computes the element-wise arithmetic mean:
`[[1,2],[3,4]]` aggregates to `[2,3]`; an empty sequence of vectors, or a
first vector of zero length, yields the empty vector without raising; and
for equal-length (more precisely: no vector shorter than the first)
non-degenerate inputs the result is the element-wise mean. -/
theorem C8_aggregate_mean :
    aggEmbeddings [[1, 2], [3, 4]] = .ok [2, 3]
    ∧ aggEmbeddings [] = .ok []
    ∧ (∀ rest : List (List ℚ), aggEmbeddings ([] :: rest) = .ok [])
    ∧ ∀ (v0 : List ℚ) (rest : List (List ℚ)), v0 ≠ [] →
        (∀ v ∈ v0 :: rest, v0.length ≤ v.length) →
        aggEmbeddings (v0 :: rest)
          = .ok ((List.range v0.length).map (fun j =>
              ((v0 :: rest).map (fun v => v.getD j 0)).sum
                / ((v0 :: rest).length : ℚ))) := by
  refine ⟨?_, rfl, aggEmbeddings_first_empty, ?_⟩
  · norm_num [aggEmbeddings, addVec, List.getD, List.range_succ]
  · intro v0 rest h0 hlen
    exact aggEmbeddings_mean (v0 :: rest) v0 rest rfl h0 hlen

/-- C8 witness: the general mean clause applied at `[[1,2],[3,4]]`. -/
theorem C8_aggregate_mean_witness :
    ([1, 2] : List ℚ) ≠ []
    ∧ aggEmbeddings [[1, 2], [3, 4]]
      = .ok ((List.range ([1, 2] : List ℚ).length).map (fun j =>
          (([[1, 2], [3, 4]] : List (List ℚ)).map (fun v => v.getD j 0)).sum
            / (([[1, 2], [3, 4]] : List (List ℚ)).length : ℚ))) :=
  ⟨by decide,
    C8_aggregate_mean.2.2.2 [1, 2] [[3, 4]] (by decide)
      (by intro v hv; fin_cases hv <;> decide)⟩

/-- C2: `query_similar_snippets` is project-isolated: every hit it returns
originates from a document stored under the requested `projectId` (the SQL
filter `WHERE c.projectId = @pid` precedes scoring, ordering and `TOP k`),
for every store, query vector, `k` and distance capability. -/
theorem C2_project_isolation (dist : List ℚ → List ℚ → Option ℚ)
    (store : List StoredDoc) (queryVector : List ℚ) (projectId : String)
    (k : Nat) :
    ∀ hit ∈ query_similar_snippets dist store queryVector projectId k,
      ∃ d ∈ store, d.projectId = projectId ∧ hit.id = d.id
        ∧ hit.code = d.code := by
  intro hit hmem
  obtain ⟨d, hd, hp, hid, hcode, _⟩ :=
    query_similar_mem dist store queryVector projectId k hit hmem
  exact ⟨d, hd, hp, hid, hcode⟩

/-- C2 witness: in a store holding documents under `p1` and `p2`, the hit
returned by a search scoped to `p2` originates from a `p2` document. -/
theorem C2_project_isolation_witness :
    SearchHit.mk "b" "cb" 0 ∈ query_similar_snippets demoDist demoStore [1] "p2" 10
    ∧ ∃ d ∈ demoStore, d.projectId = "p2"
        ∧ (SearchHit.mk "b" "cb" 0).id = d.id
        ∧ (SearchHit.mk "b" "cb" 0).code = d.code :=
  ⟨by decide,
    C2_project_isolation demoDist demoStore [1] "p2" 10
      (SearchHit.mk "b" "cb" 0) (by decide)⟩

/-- C6 counterexample: ids are not project-partitioned — upserting the same
name under `p1` and then `p2` leaves a single stored document (the `p2`
write overwrote the `p1` one), not two distinct documents. -/
theorem C6_counterexample :
    (upsert_document "a" "p2" "c2" [1] none none
        (upsert_document "a" "p1" "c1" [1] none none []).1).1
      = [mkDocument "a" "p2" "c2" [1] none none]
    ∧ ((upsert_document "a" "p2" "c2" [1] none none
        (upsert_document "a" "p1" "c1" [1] none none []).1).1).length ≠ 2 := by
  decide

/-- C6 (amended): `upsert` creates or fully replaces the document whose id
(and partition key) is the snippet name, globally — not per project: a
repeated upsert with identical arguments leaves the stored state unchanged,
after an upsert exactly one document carries that id, and upserting the
same name under a different project replaces the earlier document instead
of coexisting with it. -/
theorem C6_upsert_global_id (name p1 p2 code1 code2 : String)
    (emb1 emb2 : List ℚ) (l1 l2 d1 d2 : Option String)
    (store : List StoredDoc) :
    ((upsert_document name p1 code1 emb1 l1 d1
        (upsert_document name p1 code1 emb1 l1 d1 store).1).1
      = (upsert_document name p1 code1 emb1 l1 d1 store).1)
    ∧ (upsert_document name p1 code1 emb1 l1 d1 store).1.countP
        (fun d => d.name == name && d.id == name) = 1
    ∧ (upsert_document name p2 code2 emb2 l2 d2
        (upsert_document name p1 code1 emb1 l1 d1 store).1).1
      = (upsert_document name p2 code2 emb2 l2 d2 store).1 :=
  ⟨upsert_document_absorbs name p1 p1 code1 code1 emb1 emb1 l1 l1 d1 d1 store,
   upsert_document_unique name p1 code1 emb1 l1 d1 store,
   upsert_document_absorbs name p1 p2 code1 code2 emb1 emb2 l1 l2 d1 d2 store⟩

/-- C1 counterexample: the orchestrator's return value is a single
persistence result (the `result` variable overwritten on each iteration),
not a per-snippet list: forcing persistence failure of only the second
snippet and forcing failure of both snippets yield the same return value —
the first snippet's outcome is absent from it — even though the actual
per-snippet outcomes differ. -/
theorem C1_counterexample :
    (runIngestion mockEnv apiNone failSecond demoPayload).1
      = (runIngestion mockEnv apiNone failBoth demoPayload).1
    ∧ (runIngestion mockEnv apiNone failSecond demoPayload).1
      = .ok (.err "boom")
    ∧ (runIngestion mockEnv apiNone failSecond demoPayload).2.results
      ≠ (runIngestion mockEnv apiNone failBoth demoPayload).2.results :=
  ⟨rfl, rfl, by decide⟩

/-- C1 (amended): for a validated submission the orchestrator calls
persistence once per snippet in submission order, a per-snippet persistence
failure is captured as `{ok: false, error}` without aborting later
snippets, but the orchestrator returns only the final snippet's persistence
result — the per-snippet outcomes are not returned as a list. -/
theorem C1_returns_last_result (env : OrchEnv)
    (api : List Char → Option (List ℚ))
    (upsert : SnippetDoc → Except String String) (payload : JVal)
    (r : PersistResult) (hvalid : validate_input payload = true)
    (hok : (runIngestion env api upsert payload).1 = .ok r) :
    (runIngestion env api upsert payload).2.results.length
        = (payloadSnippets payload).length
    ∧ r = (runIngestion env api upsert payload).2.results.getLastD .empty := by
  rw [runIngestion_valid env api upsert payload hvalid] at hok ⊢
  exact ⟨processSnippets_ok_length env api upsert _ _ _ r
      (validate_input_snippets payload hvalid) hok,
    processSnippets_ok_last env api upsert _ _ _ r hok⟩

/-- C1 witness: the two-snippet batch whose second persistence fails — the
per-snippet outcomes are `[{ok, id: s1}, {ok: false, error: boom}]` (length
2, first ok, second failed, as the spec's scenario expects of the result
list), while the orchestrator returns just the final outcome. -/
theorem C1_returns_last_result_witness :
    validate_input demoPayload = true
    ∧ (runIngestion mockEnv apiNone failSecond demoPayload).1
        = .ok (.err "boom")
    ∧ (runIngestion mockEnv apiNone failSecond demoPayload).2.results
        = [.ok "s1", .err "boom"]
    ∧ ((runIngestion mockEnv apiNone failSecond demoPayload).2.results.length
        = (payloadSnippets demoPayload).length
      ∧ PersistResult.err "boom"
        = (runIngestion mockEnv apiNone failSecond
            demoPayload).2.results.getLastD .empty) :=
  ⟨by decide, rfl, rfl,
    C1_returns_last_result mockEnv apiNone failSecond demoPayload
      (.err "boom") (by decide) rfl⟩

/-- C3 counterexample: with the embedding capability configured, a snippet
splitting into two chunks whose first embedding succeeds (`[1,2]`) and
whose second fails (empty vector) crashes the orchestration with the
aggregation's uncaught `IndexError` — the document is not persisted at
all, rather than being persisted with a degenerate embedding. -/
theorem C3_counterexample :
    ((pyChunk "abcdefgh".data liveEnv.chunkSize).map
        (embed_chunk_activity liveEnv.embed apiFail2)) = [[1, 2], []]
    ∧ (runIngestion liveEnv apiFail2 okUpsert demoTwoChunk).1
      = .error "IndexError: list index out of range"
    ∧ (runIngestion liveEnv apiFail2 okUpsert demoTwoChunk).2.persistCalls
      = [] :=
  ⟨by decide, rfl, rfl⟩

/-- C3 (amended): a chunk-embedding failure is recoverable only when it is
the first chunk's vector that is empty: then the aggregate degrades to the
empty vector and the document is still persisted (with an empty embedding,
and remains retrievable by point lookup); but when the first chunk's vector
is non-empty and a later chunk's vector is shorter (in particular empty),
the aggregation raises `IndexError` and the orchestration crashes without
persisting the document. -/
theorem C3_first_chunk_recoverable :
    (∀ rest : List (List ℚ), aggEmbeddings ([] :: rest) = .ok [])
    ∧ (∀ (v0 : List ℚ) (rest : List (List ℚ)), v0 ≠ [] →
        (∃ v ∈ rest, v.length < v0.length) →
        aggEmbeddings (v0 :: rest)
          = .error "IndexError: list index out of range")
    ∧ (runIngestion liveEnv apiFail1 okUpsert demoTwoChunk).1 = .ok (.ok "s1")
    ∧ (runIngestion liveEnv apiFail1 okUpsert
        demoTwoChunk).2.persistCalls.map (fun d => d.embedding) = [[]]
    ∧ get_snippet_by_id
        (upsert_document "s1" "p" "abcdefgh" [] none none []).1 "s1"
      = some (mkDocument "s1" "p" "abcdefgh" [] none none) :=
  ⟨aggEmbeddings_first_empty,
   fun v0 rest h0 hshort => aggEmbeddings_short_vec v0 rest h0 hshort,
   rfl, rfl, by decide⟩

/-- C3 witness: the crash clause applied at the concrete embeddings
`[[1,2], []]` (first chunk succeeded, second failed). -/
theorem C3_first_chunk_recoverable_witness :
    ([1, 2] : List ℚ) ≠ []
    ∧ (∃ v ∈ [([] : List ℚ)], v.length < ([1, 2] : List ℚ).length)
    ∧ aggEmbeddings [[1, 2], []]
      = .error "IndexError: list index out of range" :=
  ⟨by decide, ⟨[], by simp⟩,
    C3_first_chunk_recoverable.2.1 [1, 2] [[]] (by decide) ⟨[], by simp⟩⟩

/-- C5: a document whose stored embedding is empty is never returned by
similarity search — granted the external `VectorDistance` is undefined on
an empty vector (Cosmos omits rows whose `ORDER BY` expression is
undefined) — while it remains visible to `get_snippet_by_id` point
lookup. -/
theorem C5_unusable_embedding_excluded (dist : List ℚ → List ℚ → Option ℚ)
    (store : List StoredDoc) (queryVector : List ℚ) (projectId : String)
    (k : Nat) (hdist : ∀ q, dist [] q = none) :
    (∀ hit ∈ query_similar_snippets dist store queryVector projectId k,
      ∃ d ∈ store, d.projectId = projectId ∧ hit.id = d.id
        ∧ d.embedding ≠ [])
    ∧ ∀ (name pid2 code : String) (lang desc : Option String)
        (store2 : List StoredDoc),
        get_snippet_by_id
          (upsert_document name pid2 code [] lang desc store2).1 name
          = some (mkDocument name pid2 code [] lang desc) := by
  constructor
  · intro hit hmem
    obtain ⟨d, hd, hp, hid, _, hdef⟩ :=
      query_similar_mem dist store queryVector projectId k hit hmem
    refine ⟨d, hd, hp, hid, ?_⟩
    intro hemb
    rw [hemb, hdist queryVector] at hdef
    exact Option.noConfusion hdef
  · intro name pid2 code lang desc store2
    exact get_after_upsert name pid2 code [] lang desc store2

/-- C5 witness: in a store containing a document with an empty embedding
under the searched project, the returned hit originates from a document
with a non-empty embedding, and the empty-embedding document is still
point-lookup-able. -/
theorem C5_unusable_embedding_excluded_witness :
    (∀ q, demoDist [] q = none)
    ∧ SearchHit.mk "b" "cb" 0
        ∈ query_similar_snippets demoDist demoStore [1] "p2" 10
    ∧ (∃ d ∈ demoStore, d.projectId = "p2"
        ∧ (SearchHit.mk "b" "cb" 0).id = d.id ∧ d.embedding ≠ [])
    ∧ get_snippet_by_id
        (upsert_document "e" "p2" "ce" [] none none []).1 "e"
      = some (mkDocument "e" "p2" "ce" [] none none) :=
  ⟨fun q => rfl, by decide,
    (C5_unusable_embedding_excluded demoDist demoStore [1] "p2" 10
      (fun q => rfl)).1 (SearchHit.mk "b" "cb" 0) (by decide),
    (C5_unusable_embedding_excluded demoDist demoStore [1] "p2" 10
      (fun q => rfl)).2 "e" "p2" "ce" none none []⟩

/-- C7 counterexample: `validate_input` accepts a snippet whose `name` is
the empty string (it only checks that the key is present, never that the
value is a non-empty string), so validation is weaker than the claimed
"non-empty string name" requirement (`specValidateInput`, the validation
the spec words describe, rejects this payload). -/
theorem C7_counterexample :
    validate_input demoEmptyName = true
    ∧ specValidateInput demoEmptyName = false := by
  decide

/-- C7 (amended): `validate_input` accepts a payload exactly when it is a
dict containing a non-empty list `snippets` whose every element is a dict
that has a `name` key (of arbitrary value) and whose `code` is a string
with non-empty strip; any violation makes the orchestrator raise before
any activity is scheduled — zero embedding calls and an empty trace. -/
theorem C7_validation_characterization (payload : JVal) :
    (validate_input payload = true ↔
      (jIsDict payload = true
        ∧ ∃ xs, jGet payload "snippets" = some (.arr xs) ∧ xs ≠ []
          ∧ ∀ s ∈ xs, jIsDict s = true ∧ jHasKey s "name" = true
            ∧ ∃ c, jGet s "code" = some (.str c) ∧ stripIsEmpty c = false))
    ∧ (validate_input payload = false →
        ∀ (env : OrchEnv) (api : List Char → Option (List ℚ))
          (upsert : SnippetDoc → Except String String),
          runIngestion env api upsert payload
            = (.error "Invalid input payload", ⟨[], [], []⟩)) := by
  constructor
  · constructor
    · intro h
      unfold validate_input at h
      simp only [Bool.and_eq_true] at h
      obtain ⟨⟨hd, _⟩, hm⟩ := h
      refine ⟨hd, ?_⟩
      cases hg : jGet payload "snippets" with
      | none => rw [hg] at hm; simp at hm
      | some v =>
        rw [hg] at hm
        cases v with
        | arr xs =>
          simp only [Bool.and_eq_true] at hm
          refine ⟨xs, rfl, ?_, ?_⟩
          · intro hnil
            subst hnil
            simp at hm
          · intro s hs
            have hv := List.all_eq_true.mp hm.2 s hs
            unfold validSnippet at hv
            simp only [Bool.and_eq_true] at hv
            obtain ⟨⟨⟨hsd, hsn⟩, _⟩, hcode⟩ := hv
            refine ⟨hsd, hsn, ?_⟩
            cases hgc : jGet s "code" with
            | none => rw [hgc] at hcode; simp at hcode
            | some w =>
              rw [hgc] at hcode
              cases w with
              | str c =>
                refine ⟨c, rfl, ?_⟩
                simpa using hcode
              | null => simp at hcode
              | bool b => simp at hcode
              | num n => simp at hcode
              | arr ys => simp at hcode
              | obj fs => simp at hcode
        | null => simp at hm
        | bool b => simp at hm
        | num n => simp at hm
        | str c => simp at hm
        | obj fs => simp at hm
    · rintro ⟨hd, xs, hg, hne, hall⟩
      unfold validate_input
      simp only [Bool.and_eq_true]
      refine ⟨⟨hd, ?_⟩, ?_⟩
      · unfold jHasKey
        rw [hg]
        rfl
      · rw [hg]
        simp only [Bool.and_eq_true]
        constructor
        · cases xs with
          | nil => exact absurd rfl hne
          | cons x t => rfl
        · rw [List.all_eq_true]
          intro s hs
          obtain ⟨hsd, hsn, c, hgc, hstrip⟩ := hall s hs
          unfold validSnippet
          simp only [Bool.and_eq_true]
          refine ⟨⟨⟨hsd, hsn⟩, ?_⟩, ?_⟩
          · unfold jHasKey
            rw [hgc]
            rfl
          · rw [hgc]
            simp [hstrip]
  · intro hf env api upsert
    exact runIngestion_invalid env api upsert payload hf

/-- C7 witness: the empty-list submission is rejected and the orchestrator
makes zero embedding calls for it. -/
theorem C7_validation_characterization_witness :
    validate_input demoEmptyList = false
    ∧ runIngestion mockEnv apiNone okUpsert demoEmptyList
        = (.error "Invalid input payload", ⟨[], [], []⟩) :=
  ⟨by decide,
    (C7_validation_characterization demoEmptyList).2 (by decide)
      mockEnv apiNone okUpsert⟩

/-- C9 counterexample: when the similarity search succeeds but the chat
completion call raises, `_chat_complete` swallows the exception into
`("", usage-with-error)` and `http_query` returns HTTP 200 with that empty
answer — a success response produced by a failed generation call, which
the claim rules out. -/
theorem C9_counterexample :
    chat_complete chatFailEnv = ("", true)
    ∧ http_query "q" (.ok [SearchHit.mk "b" "cb" 0]) chatFailEnv
      = (200, .success "" [("b", 0)] true) := by
  decide

/-- C9 (amended): an empty (post-strip) question yields HTTP 400; an error
payload from the search capability yields HTTP 502 with that error (never a
200 with an empty answer); but a successful search always yields HTTP 200
whose answer is whatever `_chat_complete` produced — including the empty
or placeholder text of a failed generation call, flagged only inside
`usage`. -/
theorem C9_error_handling (question : String) (chat : ChatEnv) :
    (stripIsEmpty question = true →
      ∀ searchOutcome, http_query question searchOutcome chat
        = (400, .failure "question is required"))
    ∧ (stripIsEmpty question = false →
        ∀ e, http_query question (.error e) chat = (502, .failure e))
    ∧ (stripIsEmpty question = false →
        ∀ results, http_query question (.ok results) chat
          = (200, .success (chat_complete chat).1
              (results.map (fun r => (r.id, r.score)))
              (chat_complete chat).2)) := by
  refine ⟨?_, ?_, ?_⟩
  · intro h so
    unfold http_query
    rw [if_pos h]
  · intro h e
    unfold http_query
    rw [if_neg (by rw [h]; exact Bool.false_ne_true)]
  · intro h results
    unfold http_query
    rw [if_neg (by rw [h]; exact Bool.false_ne_true)]

/-- C9 witness: the 502 clause applied at a concrete failing search. -/
theorem C9_error_handling_witness :
    stripIsEmpty "q" = false
    ∧ http_query "q" (.error "sad") chatFailEnv = (502, .failure "sad") :=
  ⟨by decide, (C9_error_handling "q" chatFailEnv).2.1 (by decide) "sad"⟩

/-- C10: with `EMBEDDING_MODEL_DEPLOYMENT_NAME` or
`PROJECT_CONNECTION_STRING` unset (or empty), `embed_chunk_activity`
returns the fixed mock vector `[0, 1, 0]` for every non-empty chunk text,
and consequently every document the orchestrator persists carries the
3-dimensional embedding `[0, 1, 0]` (never an empty one). -/
theorem C10_mock_fallback (env : OrchEnv)
    (api : List Char → Option (List ℚ))
    (upsert : SnippetDoc → Except String String) (payload : JVal)
    (hmock : (envFalsy env.embed.modelName
      || envFalsy env.embed.connString) = true)
    (hsize : 0 < env.chunkSize) :
    (∀ text : List Char, text ≠ [] →
      embed_chunk_activity env.embed api text = [0, 1, 0])
    ∧ ∀ doc ∈ (runIngestion env api upsert payload).2.persistCalls,
        doc.embedding = [0, 1, 0] := by
  constructor
  · intro text htne
    unfold embed_chunk_activity
    rw [if_neg (by simp only [List.isEmpty_iff]; exact htne), if_pos hmock]
  · by_cases hv : validate_input payload
    · rw [runIngestion_valid env api upsert payload hv]
      exact processSnippets_persist_mock env api upsert _ hmock hsize _ _
    · rw [runIngestion_invalid env api upsert payload
        (Bool.eq_false_iff.mpr hv)]
      intro doc hdoc
      simp at hdoc

/-- C10 witness: the unconfigured default environment embeds the chunk
`"ab"` as `[0, 1, 0]`, and both documents of the two-snippet demo batch are
persisted with embedding `[0, 1, 0]`. -/
theorem C10_mock_fallback_witness :
    (envFalsy mockEnv.embed.modelName
      || envFalsy mockEnv.embed.connString) = true
    ∧ (0 : Nat) < mockEnv.chunkSize
    ∧ embed_chunk_activity mockEnv.embed apiNone "ab".data = [0, 1, 0]
    ∧ ∀ doc ∈ (runIngestion mockEnv apiNone failSecond
        demoPayload).2.persistCalls, doc.embedding = [0, 1, 0] :=
  ⟨by decide, by decide,
    (C10_mock_fallback mockEnv apiNone failSecond demoPayload
      (by decide) (by decide)).1 "ab".data (by decide),
    (C10_mock_fallback mockEnv apiNone failSecond demoPayload
      (by decide) (by decide)).2⟩

end Snippy
